import Mathlib

/-!
Verification development for the `zx` scripting helper (`src/index.mjs`).

JavaScript strings are modelled as lists of characters (`JStr`); JavaScript
values that can be `null`/`undefined` are modelled with `Option`.  Each
definition below is a direct translation of the correspondingly named
function or statement of `src/index.mjs`; external collaborators (the
`which` executable search, the `shq` quoting library, chalk's colour
wrapper) are passed in as function parameters.
-/

namespace Zx

/-- JavaScript strings, modelled as lists of characters. -/
abbrev JStr := List Char

/-- Convert a Lean string literal into the `JStr` model. -/
def jstr (s : String) : JStr := s.data

/-- `ProcessOutput` (src/index.mjs lines 139-173): the record built by the
constructor from `{code, stdout, stderr, combined, __from}`.  The class has
only private fields and getters, so the structure fields stand for the
private fields. `code` is `Option Int` because Node hands the exit callback
`null` when the child was killed by a signal. -/
structure ProcessOutput where
  code : Option Int
  stdout : JStr
  stderr : JStr
  combined : JStr
  fromSite : JStr
deriving DecidableEq

/-- The `toString()` method of `ProcessOutput`: returns the combined buffer. -/
def ProcessOutput.toStr (p : ProcessOutput) : JStr := p.combined

/-- The `exitCode` getter of `ProcessOutput`: returns the private code field. -/
def ProcessOutput.exitCode (p : ProcessOutput) : Option Int := p.code

/-- An interpolation value handed to the `$` template tag: either a plain
string or a previously captured `ProcessOutput`. -/
inductive JSValue where
  | str (s : JStr)
  | output (p : ProcessOutput)
deriving DecidableEq

/-- `arg.stdout.replace(/\n$/, '')` — the JS regex `/\n$/` (no `m` flag)
matches only a newline that is the final character, so at most one trailing
newline is removed. -/
def stripLastNewline (s : JStr) : JStr :=
  if s.getLast? = some '\n' then s.dropLast else s

/-- `substitute` (src/index.mjs lines 31-36): a `ProcessOutput` argument is
replaced by its stdout with one trailing newline removed; anything else is
passed through unchanged. -/
def substitute (arg : JSValue) : JStr :=
  match arg with
  | .output p => stripLastNewline p.stdout
  | .str s => s

/-- A Buffer chunk's JS stringification of `undefined`, produced when the
builder runs past the end of `pieces`. -/
def undefinedStr : JStr := jstr "undefined"

/-- The interpolation loop of `$` (src/index.mjs line 49):
`while (i < args.length) cmd += $.quote(substitute(args[i])) + pieces[++i]`.
`ps` is the remaining pieces after the one already consumed. -/
def interpLoop (quote : JStr → JStr) : List JStr → List JSValue → JStr
  | _, [] => []
  | [], a :: as => quote (substitute a) ++ undefinedStr ++ interpLoop quote [] as
  | p :: ps, a :: as => quote (substitute a) ++ p ++ interpLoop quote ps as

/-- The command string built by `$` (src/index.mjs lines 48-49):
`cmd = pieces[0]` followed by the interpolation loop. -/
def buildCmd (quote : JStr → JStr) (pieces : List JStr) (args : List JSValue) : JStr :=
  (pieces.headD undefinedStr) ++ interpLoop quote pieces.tail args

/-- Modelled from the spec (§4.3, §8): the exact interleaving
`segments[0] + quote(v0) + segments[1] + ... + segments[n]`, with the
quoting strategy applied to interpolated values only, after substitution,
and never to literal segments. -/
def specInterleaving (quote : JStr → JStr) : List JStr → List JSValue → JStr
  | [s], [] => s
  | s :: segs, v :: vs => s ++ quote (substitute v) ++ specInterleaving quote segs vs
  | _, _ => []

/-- The fate of the promise returned by `$`. -/
inductive Settled where
  | resolved (p : ProcessOutput)
  | rejected (p : ProcessOutput)
deriving DecidableEq

/-- The exit handler of `$` (src/index.mjs lines 72-76):
`(code === 0 ? resolve : reject)(new ProcessOutput({code, stdout, stderr, combined, __from}))`.
JS `null === 0` is false, so only `some 0` resolves. -/
def onExit (code : Option Int) (stdout stderr combined fromSite : JStr) : Settled :=
  if code = some 0 then
    .resolved ⟨code, stdout, stderr, combined, fromSite⟩
  else
    .rejected ⟨code, stdout, stderr, combined, fromSite⟩

/-- The process-wide `$` state established by module load
(src/index.mjs lines 80-95): verbosity, working directory, resolved shell,
command preamble (`$.prefix` in the source), quoting strategy and the
warnings printed by `console.warn` during resolution. -/
structure DollarState where
  verbose : Bool
  cwd : Option JStr
  shell : Option JStr
  preamble : JStr
  quote : JStr → JStr
  warnings : List JStr

/-- `whichSyncFallback` (src/index.mjs lines 38-44): probe each candidate
with `which.sync(cmd, {nothrow: true})` and return the first hit, or
`undefined` (here `none`) when every probe misses. -/
def whichSyncFallback (whichSync : JStr → Option JStr) : List JStr → Option JStr
  | [] => none
  | c :: cs =>
    match whichSync c with
    | some r => some r
    | none => whichSyncFallback whichSync cs

/-- The strict-mode preamble `'set -euo pipefail;'` installed when bash is
found (src/index.mjs line 86). -/
def strictPreamble : JStr := jstr "set -euo pipefail;"

/-- Warning printed when only powershell is found (src/index.mjs line 92). -/
def powershellWarning : JStr :=
  jstr "Using powershell: no built-in quoting available yet."

/-- Warning printed when no shell at all is found (src/index.mjs line 94). -/
def unknownShellWarning : JStr :=
  jstr "Unknown shell. Falling back to nodejs default. No quoting available."

/-- Module-load shell resolution (src/index.mjs lines 80-95).  `shq` is the
external quoting library, `whichSync` the executable-search collaborator.
Starting state: `$.verbose = true`, `$.cwd = undefined`, `$.quote = s => s`,
`$.prefix = ''`; then bash is probed first, then `pwsh`/`powershell`. -/
def initDollar (shq : JStr → JStr) (whichSync : JStr → Option JStr) : DollarState :=
  let base : DollarState :=
    { verbose := true, cwd := none, shell := none, preamble := [],
      quote := fun s => s, warnings := [] }
  match whichSync (jstr "bash") with
  | some sh => { base with shell := some sh, preamble := strictPreamble, quote := shq }
  | none =>
    match whichSyncFallback whichSync [jstr "pwsh", jstr "powershell"] with
    | some sh => { base with shell := some sh, warnings := [powershellWarning] }
    | none => { base with warnings := [unknownShellWarning] }

/-- The options record handed to `exec` (src/index.mjs lines 54-58):
`windowsHide: true`, plus `shell`/`cwd` copied from `$` when defined. -/
structure ExecOptions where
  windowsHide : Bool
  shell : Option JStr
  cwd : Option JStr
deriving DecidableEq

/-- Build the `exec` options from the `$` state (src/index.mjs lines 54-58). -/
def execOptions (st : DollarState) : ExecOptions :=
  { windowsHide := true, shell := st.shell, cwd := st.cwd }

/-- The string actually spawned (src/index.mjs line 60):
`exec($.prefix + cmd, options)`. -/
def spawnedCommand (st : DollarState) (cmd : JStr) : JStr := st.preamble ++ cmd

/-- Result of the `cd` operation (src/index.mjs lines 97-106): either the
process terminates via `process.exit(1)` after printing two lines to the
error stream, or `$.cwd` is updated. -/
inductive CdResult where
  | exited (status : Int) (errLines : List JStr)
  | ok (newState : DollarState)

/-- `cd` (src/index.mjs lines 97-106), with the filesystem-existence check
and the captured call site passed in.  A missing path prints
`cd: ${path}: No such directory` and `  at ${__from}` to the error stream
and exits with status 1; otherwise `$.cwd := path`. -/
def cd (existsSync : JStr → Bool) (fromSite : JStr) (path : JStr)
    (st : DollarState) : CdResult :=
  if existsSync path then
    .ok { st with cwd := some path }
  else
    .exited 1 [jstr "cd: " ++ path ++ jstr ": No such directory",
               jstr "  at " ++ fromSite]

/-- Which child stream a chunk arrived on. -/
inductive StreamSrc where
  | stdout | stderr
deriving DecidableEq

/-- The three accumulation buffers of one `$` invocation
(src/index.mjs line 61): `let stdout = '', stderr = '', combined = ''`. -/
structure Buffers where
  stdout : JStr
  stderr : JStr
  combined : JStr
deriving DecidableEq

/-- One `data` event (src/index.mjs lines 62-71): the chunk is appended to
its own stream's buffer and to the combined buffer. -/
def handleChunk (b : Buffers) (c : StreamSrc × JStr) : Buffers :=
  match c.1 with
  | .stdout => { b with stdout := b.stdout ++ c.2, combined := b.combined ++ c.2 }
  | .stderr => { b with stderr := b.stderr ++ c.2, combined := b.combined ++ c.2 }

/-- Fold a whole arrival-ordered chunk sequence through the handlers,
starting from the empty buffers. -/
def runChunks (chunks : List (StreamSrc × JStr)) : Buffers :=
  chunks.foldl handleChunk ⟨[], [], []⟩

/-- The live mirroring of one chunk to the parent's stream
(src/index.mjs lines 63 and 68): written only when `$.verbose`. -/
def mirroredChunk (verbose : Bool) (c : StreamSrc × JStr) : JStr :=
  if verbose then c.2 else []

/-- JS `\w` character class: `[A-Za-z0-9_]`. -/
def isWordChar (c : Char) : Bool :=
  (c ≥ 'a' ∧ c ≤ 'z') ∨ (c ≥ 'A' ∧ c ≤ 'Z') ∨ (c ≥ '0' ∧ c ≤ '9') ∨ c = '_'

/-- JS `\s` character class, restricted to the ASCII whitespace the shell
commands at hand can contain. -/
def isSpaceChar (c : Char) : Bool :=
  c = ' ' ∨ c = '\t' ∨ c = '\n' ∨ c = '\r'

/-- `colorize` (src/index.mjs lines 25-29): `cmd.replace(/^\w+\s/, green)`.
The greedy leading word run followed by one whitespace character is wrapped
with the colour function; otherwise the command is unchanged. -/
def colorize (green : JStr → JStr) (cmd : JStr) : JStr :=
  let w := cmd.takeWhile isWordChar
  match cmd.dropWhile isWordChar with
  | c :: rest =>
    if w ≠ [] ∧ isSpaceChar c then green (w ++ [c]) ++ rest else cmd
  | [] => cmd

/-- The echo of a built command (src/index.mjs line 51):
`if ($.verbose) console.log('$', colorize(cmd))`; the list holds the lines
printed. -/
def commandEcho (st : DollarState) (green : JStr → JStr) (cmd : JStr) : List JStr :=
  if st.verbose then [jstr "$ " ++ colorize green cmd] else []

/-! ## Helper lemmas -/

/-- `$.verbose` is set to `true` before shell resolution and no resolution
branch touches it, so the module-load state always has `verbose = true`. -/
theorem initDollar_verbose (shq : JStr → JStr) (w : JStr → Option JStr) :
    (initDollar shq w).verbose = true := by
  unfold initDollar
  cases w (jstr "bash") with
  | some sh => rfl
  | none =>
    cases whichSyncFallback w [jstr "pwsh", jstr "powershell"] with
    | some sh => rfl
    | none => rfl

/-! ## Claims -/

/-- C1: for every command execution, when the child exits with code 0 the
promise resolves with a `ProcessOutput` whose `exitCode` is 0, and when it
exits with any non-zero code the promise rejects with a `ProcessOutput`
(same structure: code, stdout, stderr, combined, origin) carrying that same
non-zero code. -/
theorem exit_zero_resolves_nonzero_rejects (code : Int) (so se co f : JStr) :
    (code = 0 →
      onExit (some code) so se co f
        = Settled.resolved ⟨some code, so, se, co, f⟩ ∧
      (ProcessOutput.mk (some code) so se co f).exitCode = some 0)
  ∧ (code ≠ 0 →
      onExit (some code) so se co f
        = Settled.rejected ⟨some code, so, se, co, f⟩ ∧
      (ProcessOutput.mk (some code) so se co f).exitCode = some code) := by
  constructor
  · rintro rfl
    exact ⟨by simp [onExit], rfl⟩
  · intro h
    exact ⟨by simp [onExit, h], rfl⟩

/-- Witness for C1: code 0 resolves, code 7 rejects. -/
theorem exit_zero_resolves_nonzero_rejects_witness :
    onExit (some 0) ['o','k'] [] ['o','k'] []
      = Settled.resolved ⟨some 0, ['o','k'], [], ['o','k'], []⟩ ∧
    onExit (some 7) [] ['e'] ['e'] []
      = Settled.rejected ⟨some 7, [], ['e'], ['e'], []⟩ :=
  ⟨((exit_zero_resolves_nonzero_rejects 0 ['o','k'] [] ['o','k'] []).1 rfl).1,
   ((exit_zero_resolves_nonzero_rejects 7 [] ['e'] ['e'] []).2 (by decide)).1⟩

/-- C3: interpolating a prior `ProcessOutput` substitutes its stdout with
exactly one trailing newline removed when present — only one, however many
trailing newlines there are — and none when absent; non-`ProcessOutput`
values are substituted as-is. -/
theorem substitute_strips_one_trailing_newline :
    (∀ p : ProcessOutput, ∀ t : JStr, p.stdout = t ++ ['\n'] →
        substitute (.output p) = t)
  ∧ (∀ p : ProcessOutput, p.stdout.getLast? ≠ some '\n' →
        substitute (.output p) = p.stdout)
  ∧ (∀ s : JStr, substitute (.str s) = s) := by
  refine ⟨?_, ?_, fun s => rfl⟩
  · intro p t h
    simp [substitute, stripLastNewline, h]
  · intro p h
    simp [substitute, stripLastNewline, h]

/-- Witness for C3: stdout `"42\n\n"` loses exactly one newline, stdout
`"42"` is unchanged, and a plain string passes through. -/
theorem substitute_strips_one_trailing_newline_witness :
    substitute (.output ⟨some 0, ['4','2','\n','\n'], [], [], []⟩)
      = ['4','2','\n'] ∧
    substitute (.output ⟨some 0, ['4','2'], [], [], []⟩) = ['4','2'] ∧
    substitute (.str ['a','b']) = ['a','b'] :=
  ⟨substitute_strips_one_trailing_newline.1
      ⟨some 0, ['4','2','\n','\n'], [], [], []⟩ ['4','2','\n'] rfl,
   substitute_strips_one_trailing_newline.2.1
      ⟨some 0, ['4','2'], [], [], []⟩ (by decide),
   substitute_strips_one_trailing_newline.2.2 ['a','b']⟩

/-- C8: a `ProcessOutput` is a read-only snapshot: every accessor returns
exactly the value supplied at construction (the structure offers no
mutating operation), and its string conversion yields the combined
stream. -/
theorem process_output_read_only (code : Option Int) (so se co f : JStr) :
    (ProcessOutput.mk code so se co f).exitCode = code ∧
    (ProcessOutput.mk code so se co f).stdout = so ∧
    (ProcessOutput.mk code so se co f).stderr = se ∧
    (ProcessOutput.mk code so se co f).combined = co ∧
    (ProcessOutput.mk code so se co f).fromSite = f ∧
    (ProcessOutput.mk code so se co f).toStr = co :=
  ⟨rfl, rfl, rfl, rfl, rfl, rfl⟩

/-- C9: a child terminated by a signal hands the exit callback `null`;
`null === 0` is false, so the promise rejects with a `ProcessOutput` whose
`exitCode` is `null` (not an integer). -/
theorem signal_termination_rejects_with_null (so se co f : JStr) :
    onExit none so se co f = Settled.rejected ⟨none, so, se, co, f⟩ ∧
    (ProcessOutput.mk none so se co f).exitCode = none ∧
    ∀ n : Int, (ProcessOutput.mk none so se co f).exitCode ≠ some n :=
  ⟨by simp [onExit], rfl, fun n h => Option.noConfusion h⟩

/-- C10: `$.verbose` is `true` after module load in every resolution
branch, so by default every built command is echoed (one `console.log`
line) and every output chunk is mirrored in full to the parent stream. -/
theorem verbose_defaults_to_true (shq : JStr → JStr) (w : JStr → Option JStr)
    (green : JStr → JStr) :
    (initDollar shq w).verbose = true ∧
    (∀ cmd, commandEcho (initDollar shq w) green cmd
        = [jstr "$ " ++ colorize green cmd]) ∧
    (∀ c, mirroredChunk (initDollar shq w).verbose c = c.2) := by
  refine ⟨initDollar_verbose shq w, fun cmd => ?_, fun c => ?_⟩
  · simp [commandEcho, initDollar_verbose]
  · simp [mirroredChunk, initDollar_verbose]

/-- C2: for a well-formed template (one more literal segment than
interpolation values) the command string built by `$` is the exact
interleaving `segments[0] + quote(v0) + segments[1] + ...` of the spec,
quoting only the substituted interpolation values, never the literal
segments. -/
theorem build_is_exact_interleaving (quote : JStr → JStr)
    (pieces : List JStr) (args : List JSValue)
    (h : pieces.length = args.length + 1) :
    buildCmd quote pieces args = specInterleaving quote pieces args := by
  induction args generalizing pieces with
  | nil =>
    obtain ⟨s, rfl⟩ : ∃ s, pieces = [s] := by
      cases pieces with
      | nil => simp at h
      | cons p ps =>
        cases ps with
        | nil => exact ⟨p, rfl⟩
        | cons q qs => simp at h
    simp [buildCmd, interpLoop, specInterleaving]
  | cons a as ih =>
    cases pieces with
    | nil => simp at h
    | cons p0 ps =>
      cases ps with
      | nil => simp at h
      | cons p1 rest =>
        have h' : (p1 :: rest).length = as.length + 1 := by
          simpa using h
        have ih' := ih (p1 :: rest) h'
        simp only [buildCmd, List.headD_cons, List.tail_cons] at ih' ⊢
        simp only [interpLoop, specInterleaving, List.append_assoc]
        rw [← ih']

/-- Witness for C2: building `echo ${"a b"}` with a bracketing quote
function matches the spec interleaving. -/
theorem build_is_exact_interleaving_witness :
    buildCmd (fun s => jstr "Q" ++ s ++ jstr "Q")
        [jstr "echo ", []] [.str (jstr "a b")]
      = specInterleaving (fun s => jstr "Q" ++ s ++ jstr "Q")
        [jstr "echo ", []] [.str (jstr "a b")] :=
  build_is_exact_interleaving (fun s => jstr "Q" ++ s ++ jstr "Q")
    [jstr "echo ", []] [.str (jstr "a b")] (by decide)

/-- Folding the chunk handler from any starting buffers appends, in arrival
order: stdout chunks to `stdout`, stderr chunks to `stderr`, and every
chunk to `combined`. -/
theorem foldl_handleChunk (chunks : List (StreamSrc × JStr)) (b : Buffers) :
    chunks.foldl handleChunk b =
      ⟨b.stdout ++ ((chunks.filter fun c => c.1 = StreamSrc.stdout).map
          Prod.snd).flatten,
       b.stderr ++ ((chunks.filter fun c => c.1 = StreamSrc.stderr).map
          Prod.snd).flatten,
       b.combined ++ (chunks.map Prod.snd).flatten⟩ := by
  induction chunks generalizing b with
  | nil => simp
  | cons c cs ih =>
    obtain ⟨src, d⟩ := c
    cases src <;> simp [handleChunk, ih, List.append_assoc]

/-- C7: after processing the chunks of one invocation, `combined` is the
concatenation of all chunk data in arrival order (both streams merged),
while `stdout` and `stderr` are the concatenations, in arrival order, of
the chunks from the respective stream. -/
theorem combined_preserves_arrival_order (chunks : List (StreamSrc × JStr)) :
    (runChunks chunks).combined = (chunks.map Prod.snd).flatten ∧
    (runChunks chunks).stdout
      = ((chunks.filter fun c => c.1 = StreamSrc.stdout).map
          Prod.snd).flatten ∧
    (runChunks chunks).stderr
      = ((chunks.filter fun c => c.1 = StreamSrc.stderr).map
          Prod.snd).flatten := by
  simp [runChunks, foldl_handleChunk]

/-- C4: when `which` finds no bash, the quoting strategy stays the identity
installed before resolution (`$.quote = s => s`) — even for strings with
spaces or metacharacters — and a warning about missing quoting is printed
(the powershell one or the unknown-shell one). -/
theorem no_posix_shell_identity_quote (shq : JStr → JStr)
    (w : JStr → Option JStr) (h : w (jstr "bash") = none) :
    (∀ s, (initDollar shq w).quote s = s) ∧
    (initDollar shq w).warnings ≠ [] ∧
    (∀ msg ∈ (initDollar shq w).warnings,
        msg = powershellWarning ∨ msg = unknownShellWarning) := by
  unfold initDollar
  rw [h]
  cases whichSyncFallback w [jstr "pwsh", jstr "powershell"] <;> simp

/-- Witness for C4: with no executables on the PATH, a value containing a
space passes through unquoted and a warning is recorded. -/
theorem no_posix_shell_identity_quote_witness :
    (initDollar (fun s => jstr "Q" ++ s) (fun _ => none)).quote (jstr "a b")
      = jstr "a b" ∧
    (initDollar (fun s => jstr "Q" ++ s) (fun _ => none)).warnings ≠ [] :=
  ⟨(no_posix_shell_identity_quote (fun s => jstr "Q" ++ s)
      (fun _ => none) rfl).1 (jstr "a b"),
   (no_posix_shell_identity_quote (fun s => jstr "Q" ++ s)
      (fun _ => none) rfl).2.1⟩

/-- C5: module-load resolution probes bash first, then `pwsh`, then
`powershell`; the first interpreter found becomes `$.shell`; and the
strict-mode preamble `set -euo pipefail;` is prepended to every spawned
command exactly when bash was found. -/
theorem shell_resolution_order_and_preamble (shq : JStr → JStr)
    (w : JStr → Option JStr) :
    (∀ p, w (jstr "bash") = some p →
        (initDollar shq w).shell = some p ∧
        (∀ s, (initDollar shq w).quote s = shq s) ∧
        ∀ cmd, spawnedCommand (initDollar shq w) cmd = strictPreamble ++ cmd)
  ∧ (∀ p, w (jstr "bash") = none → w (jstr "pwsh") = some p →
        (initDollar shq w).shell = some p ∧
        ∀ cmd, spawnedCommand (initDollar shq w) cmd = cmd)
  ∧ (∀ p, w (jstr "bash") = none → w (jstr "pwsh") = none →
        w (jstr "powershell") = some p →
        (initDollar shq w).shell = some p ∧
        ∀ cmd, spawnedCommand (initDollar shq w) cmd = cmd)
  ∧ (w (jstr "bash") = none → w (jstr "pwsh") = none →
        w (jstr "powershell") = none →
        (initDollar shq w).shell = none ∧
        ∀ cmd, spawnedCommand (initDollar shq w) cmd = cmd) := by
  refine ⟨fun p hb => ?_, fun p hb hp => ?_, fun p hb hp hps => ?_,
          fun hb hp hps => ?_⟩
  · simp [initDollar, whichSyncFallback, spawnedCommand, hb]
  · simp [initDollar, whichSyncFallback, spawnedCommand, hb, hp]
  · simp [initDollar, whichSyncFallback, spawnedCommand, hb, hp, hps]
  · simp [initDollar, whichSyncFallback, spawnedCommand, hb, hp, hps]

/-- Witness for C5: an environment where only bash exists yields a bash
shell and the strict preamble on a spawned command. -/
theorem shell_resolution_order_and_preamble_witness :
    (initDollar (fun s => s)
        (fun c => if c = jstr "bash" then some (jstr "/bin/bash")
                  else none)).shell = some (jstr "/bin/bash") ∧
    spawnedCommand
        (initDollar (fun s => s)
          (fun c => if c = jstr "bash" then some (jstr "/bin/bash")
                    else none)) (jstr "ls")
      = strictPreamble ++ jstr "ls" :=
  ⟨((shell_resolution_order_and_preamble (fun s => s)
      (fun c => if c = jstr "bash" then some (jstr "/bin/bash")
                else none)).1 (jstr "/bin/bash") (by decide)).1,
   ((shell_resolution_order_and_preamble (fun s => s)
      (fun c => if c = jstr "bash" then some (jstr "/bin/bash")
                else none)).1 (jstr "/bin/bash") (by decide)).2.2 (jstr "ls")⟩

/-- C6: `cd` on a missing path prints `cd: <path>: No such directory` and
the call site to the error stream and exits the process with status 1 (a
failure never returned as a value), while `cd` on an existing path updates
`$.cwd`, the working directory handed to subsequently spawned commands. -/
theorem cd_fatal_on_missing_path (ex : JStr → Bool) (site path : JStr)
    (st : DollarState) :
    (ex path = false →
        cd ex site path st =
          CdResult.exited 1
            [jstr "cd: " ++ path ++ jstr ": No such directory",
             jstr "  at " ++ site] ∧
        (1 : Int) ≠ 0)
  ∧ (ex path = true →
        cd ex site path st = CdResult.ok { st with cwd := some path } ∧
        (execOptions { st with cwd := some path }).cwd = some path) := by
  constructor
  · intro h
    exact ⟨by simp [cd, h], by decide⟩
  · intro h
    exact ⟨by simp [cd, h], rfl⟩

/-- Witness for C6: a filesystem containing only `/tmp` makes
`cd "/nope"` exit with status 1 and `cd "/tmp"` set the working
directory. -/
theorem cd_fatal_on_missing_path_witness :
    cd (fun p => p = jstr "/tmp") (jstr "file:///x.mjs:3:1") (jstr "/nope")
        (initDollar (fun s => s) (fun _ => none)) =
      CdResult.exited 1
        [jstr "cd: " ++ jstr "/nope" ++ jstr ": No such directory",
         jstr "  at " ++ jstr "file:///x.mjs:3:1"] ∧
    cd (fun p => p = jstr "/tmp") (jstr "file:///x.mjs:3:1") (jstr "/tmp")
        (initDollar (fun s => s) (fun _ => none)) =
      CdResult.ok { initDollar (fun s => s) (fun _ => none) with
                    cwd := some (jstr "/tmp") } :=
  ⟨((cd_fatal_on_missing_path (fun p => p = jstr "/tmp")
      (jstr "file:///x.mjs:3:1") (jstr "/nope")
      (initDollar (fun s => s) (fun _ => none))).1 (by decide)).1,
   ((cd_fatal_on_missing_path (fun p => p = jstr "/tmp")
      (jstr "file:///x.mjs:3:1") (jstr "/tmp")
      (initDollar (fun s => s) (fun _ => none))).2 (by decide)).1⟩

end Zx
